import Mathlib

/-!
InferenceEngine and StreamingIterator: embedding and verified properties.

Shallow embedding of `src/numerous_llm/service/inference_engine.cpp` and of the constructor
in `src/numerous_llm/endpoints/streaming/streaming_iterator.h`.

Conventions of the embedding.

* The engine is a record of its member variables; every member function is a function from
  the engine before the call to the engine after it, paired with what the call produced.
* Calls the engine makes on its collaborators (the request channel, the BatchManager, the
  ingestion thread, model instances) are appended, in program order, to the `calls` field of
  the engine record.  Results of collaborator calls that the engine inspects
  (`BatchManager::Enqueue`, `BatchManager::WaitAllDone`, `Status::ToString`) are supplied by
  a `Collaborators` record and may depend on the whole call history.  A call on the
  BatchManager or on a model instance is taken to return; `handle_thread_.join()` returns
  only when the ingestion thread leaves `HandleLoop`.
* `NLLM_LOG_INFO` lines are left out (they touch nothing but the process log); the one
  `NLLM_LOG_ERROR` in `Stop` is kept because it is the only use of `WaitAllDone`'s result.
* A call that cannot complete is reported as a `Halt`: dereferencing the null
  `batch_manager_`, joining a thread that is not joinable, assigning to a joinable
  `std::thread`, a `Read` on a channel that never delivers another item, or a join of a
  thread that never ends.
-/

namespace numerous_llm

/-! ## Status -/

/-- Modelled from the spec: the return codes of `utils/ret_code.h` (not under src).  The
three named constructors are the codes the sources under src rely on (`RET_SUCCESS` through
`Status::OK`); `RET_OTHER n` stands for every other code of the taxonomy. -/
inductive RetCode where
  | RET_SUCCESS
  | RET_INVALID_ARGUMENT
  | RET_TERMINATED
  | RET_OTHER (n : Nat)
  deriving DecidableEq, Repr

/-- Modelled from the spec: the class `Status` of `utils/status.h` (not under src), through
the two constructors the sources use: `Status()` is the success status and carries nothing,
`Status(code, message)` carries a code and a message. -/
inductive Status where
  | ok
  | error (code : RetCode) (message : String)
  deriving DecidableEq, Repr

/-- `Status::OK()`: true exactly for the success status `Status()`. -/
def Status.OK : Status → Bool
  | .ok => true
  | .error _ _ => false

/-- `Status::GetCode()`: the stored code, `RET_SUCCESS` for the success status. -/
def Status.GetCode : Status → RetCode
  | .ok => RetCode.RET_SUCCESS
  | .error code _ => code

/-! ## Data passed through the engine -/

/-- Modelled from the spec: `SamplingConfig` (declared outside src); the engine only passes
it on, so it is an uninterpreted tag. -/
structure SamplingConfig where
  tag : Nat
  deriving DecidableEq, Repr

/-- Modelled from the spec: the handle of the per-request `Waiter` (declared outside src);
the engine only passes it on. -/
structure Waiter where
  tag : Nat
  deriving DecidableEq, Repr

/-- Modelled from the spec: the struct `Request` of `utils/request.h` (not under src), with
the members the sources under src read: `req_id`, `model_name`, `tokens`,
`sampling_configs` and `waiter` in `InferenceEngine::HandleRequest`, `input_tokens` in the
constructor of `StreamingIterator`. -/
structure Request where
  req_id : Int
  model_name : String
  tokens : List (List Int)
  sampling_configs : List SamplingConfig
  waiter : Waiter
  input_tokens : List Int
  deriving DecidableEq, Repr

/-- Modelled from the spec: `BlockManagerConfig` (declared outside src), passed through
uninterpreted. -/
structure BlockManagerConfig where
  tag : Nat
  deriving DecidableEq, Repr

/-- Modelled from the spec: `BatchManagerConfig` (declared outside src), passed through
uninterpreted. -/
structure BatchManagerConfig where
  tag : Nat
  deriving DecidableEq, Repr

/-- Modelled from the spec: `ModelConfig` (declared outside src), passed through
uninterpreted. -/
structure ModelConfig where
  tag : Nat
  deriving DecidableEq, Repr

/-- The object built by `new Context(tensor_parallel_size, pipeline_parallel_size)`. -/
structure Context where
  tensor_parallel_size : Nat
  pipeline_parallel_size : Nat
  deriving DecidableEq, Repr

/-- The object built by `new BlockManager(block_manager_config, context_)`. -/
structure BlockManager where
  block_manager_config : BlockManagerConfig
  context : Option Context
  deriving DecidableEq, Repr

/-- The object built by `std::make_shared<BatchManager>(batch_manager_config, context_)`. -/
structure BatchManager where
  batch_manager_config : BatchManagerConfig
  context : Option Context
  deriving DecidableEq, Repr

/-- The object built by `std::make_shared<ModelInstance>(model_config, context_)`. -/
structure ModelInstance where
  model_config : ModelConfig
  context : Option Context
  deriving DecidableEq, Repr

/-- Modelled from the spec: what `Initialize` asks of the `Environment` singleton (declared
outside src).  A getter with an out-parameter is the pair of the returned status and the
value left in the out-parameter. -/
structure Environment where
  GetTensorParallelSize : Nat
  GetPipeLineParallelSize : Nat
  GetBlockManagerConfig : Status × BlockManagerConfig
  GetBatchManagerConfig : Status × BatchManagerConfig
  GetModelList : Status × List ModelConfig

/-! ## Calls on collaborators -/

/-- One call made by the engine, or one store to `terminated_`.  `Write` and `Close` are the
two operations of the request channel that release a blocked `Read`. -/
inductive Call where
  | NewContext (tensor_parallel_size pipeline_parallel_size : Nat)
  | NewBlockManager (config : BlockManagerConfig)
  | SetBlockManager
  | NewBatchManager (config : BatchManagerConfig)
  | Load (model_instance : ModelInstance)
  | RegisterModelInstance (model_instance : ModelInstance)
  | HandleRequest (req : Request)
  | Enqueue (req_id : Int) (model_name : String) (tokens : List (List Int))
      (sampling_configs : List SamplingConfig) (waiter : Waiter)
  | Read
  | Write (item : Status × Request)
  | Close
  | BatchManagerStart
  | StartThread
  | SetTerminated
  | Join
  | WaitAllDone
  | LogError (message : String)
  | BatchManagerStop
  deriving DecidableEq, Repr

/-- Results of the collaborator calls whose value the engine inspects.  The first argument
of `Enqueue` and `WaitAllDone` is the history of calls made before this one.  `stopped k`
tells whether the `k`-th load of `terminated_` made by the ingestion thread comes after the
store made by `Stop` on the calling thread. -/
structure Collaborators where
  ToString : Status → String
  Enqueue : List Call → Int → String → List (List Int) → List SamplingConfig → Waiter → Status
  WaitAllDone : List Call → Status
  stopped : Nat → Bool

/-- Ways a member function fails to return normally. -/
inductive Halt where
  | nullDeref
  | notJoinable
  | terminate
  | blocked
  deriving DecidableEq, Repr

/-- How a call of a member function ends: it returns a status, or it halts. -/
inductive Outcome where
  | returned (status : Status)
  | halted (h : Halt)
  deriving DecidableEq, Repr

/-! ## The engine -/

/-- Modelled from the spec: the member variables declared in `service/inference_engine.h`
(not under src), as `inference_engine.cpp` uses them, and the calls made so far.
`request_queue_` holds the items that successive `Read`s will deliver; `handle_thread_` is
whether the `std::thread` member is joinable. -/
structure InferenceEngine where
  request_queue_ : List (Status × Request)
  context_ : Option Context
  block_manager_ : Option BlockManager
  batch_manager_ : Option BatchManager
  model_instances_ : List ModelInstance
  terminated_ : Bool
  handle_thread_ : Bool
  calls : List Call
  deriving DecidableEq

/-- Modelled from the spec: the engine as the member initialisers of
`service/inference_engine.h` (not under src) leave it before the constructor body runs: null
pointers, no model instance, the termination flag unset, no ingestion thread. -/
def InferenceEngine.fresh (request_queue : List (Status × Request)) : InferenceEngine :=
  { request_queue_ := request_queue
    context_ := none
    block_manager_ := none
    batch_manager_ := none
    model_instances_ := []
    terminated_ := false
    handle_thread_ := false
    calls := [] }

/-- Append calls to the history. -/
def InferenceEngine.record (s : InferenceEngine) (cs : List Call) : InferenceEngine :=
  { s with calls := s.calls ++ cs }

/-- The body of the `for` loop of `Initialize`: build the instance, `Load` it, push it on
`model_instances_`, register it. -/
def loadModels (context : Option Context) :
    List ModelConfig → InferenceEngine → InferenceEngine
  | [], s => s
  | model_config :: rest, s =>
    let model_instance : ModelInstance := { model_config := model_config, context := context }
    let s1 := s.record [Call.Load model_instance]
    let s2 := { s1 with model_instances_ := s1.model_instances_ ++ [model_instance] }
    let s3 := s2.record [Call.RegisterModelInstance model_instance]
    loadModels context rest s3

/-- `InferenceEngine::Initialize`; `env` is what `Singleton<Environment>::GetInstance()`
returns (`none` for a null pointer). -/
def Initialize (c : Collaborators) (env : Option Environment) (s : InferenceEngine) :
    Status × InferenceEngine :=
  match env with
  | none => (Status.error RetCode.RET_INVALID_ARGUMENT "The Environment is nullptr.", s)
  | some env =>
    let context := Context.mk env.GetTensorParallelSize env.GetPipeLineParallelSize
    let s1 := { s with context_ := some context }.record
      [Call.NewContext env.GetTensorParallelSize env.GetPipeLineParallelSize]
    let status := env.GetBlockManagerConfig.1
    let block_manager_config := env.GetBlockManagerConfig.2
    if !status.OK then
      (Status.error RetCode.RET_INVALID_ARGUMENT
        ("Get block manager config error:" ++ c.ToString status), s1)
    else
      let s2 := { s1 with
        block_manager_ := some { block_manager_config := block_manager_config,
                                 context := s1.context_ } }.record
        [Call.NewBlockManager block_manager_config, Call.SetBlockManager]
      let status := env.GetBatchManagerConfig.1
      let batch_manager_config := env.GetBatchManagerConfig.2
      if !status.OK then
        (Status.error RetCode.RET_INVALID_ARGUMENT
          ("Get batch manager config error:" ++ c.ToString status), s2)
      else
        let s3 := { s2 with
          batch_manager_ := some { batch_manager_config := batch_manager_config,
                                   context := s2.context_ } }.record
          [Call.NewBatchManager batch_manager_config]
        let status := env.GetModelList.1
        let model_configs := env.GetModelList.2
        if !status.OK then
          (Status.error RetCode.RET_INVALID_ARGUMENT
            ("Get model list error:" ++ c.ToString status), s3)
        else
          (Status.ok, loadModels s3.context_ model_configs s3)

/-- The constructor `InferenceEngine::InferenceEngine(request_queue)`: it runs
`Initialize()` and drops the status; a constructor hands back the object only. -/
def InferenceEngine.new (c : Collaborators) (env : Option Environment)
    (request_queue : List (Status × Request)) : InferenceEngine :=
  (Initialize c env (InferenceEngine.fresh request_queue)).2

/-- `InferenceEngine::HandleRequest`. -/
def HandleRequest (c : Collaborators) (req : Request) (s : InferenceEngine) :
    Outcome × InferenceEngine :=
  let s0 := s.record [Call.HandleRequest req]
  match s0.batch_manager_ with
  | none => (Outcome.halted Halt.nullDeref, s0)
  | some _ =>
    let handle_req_status :=
      c.Enqueue s0.calls req.req_id req.model_name req.tokens req.sampling_configs req.waiter
    let s1 := s0.record
      [Call.Enqueue req.req_id req.model_name req.tokens req.sampling_configs req.waiter]
    if !handle_req_status.OK then
      (Outcome.returned handle_req_status, s1)
    else
      (Outcome.returned Status.ok, s1)

/-- The `while` loop of `HandleLoop`.  `items` is the content of the channel (kept equal to
`s.request_queue_`), `n` counts the loads of `terminated_` made so far, and `stopped k`
tells whether a `Stop` running on another thread has stored `true` into `terminated_` by the
time of the loop's `k`-th load.  The flag is never reset, so a load sees
`s.terminated_ || stopped k`. -/
def HandleLoop.loop (c : Collaborators) (stopped : Nat → Bool) :
    List (Status × Request) → Nat → InferenceEngine → Outcome × InferenceEngine
  | items, n, s =>
    if s.terminated_ || stopped n then
      (Outcome.returned Status.ok, s)
    else
      match items with
      | [] => (Outcome.halted Halt.blocked, s.record [Call.Read])
      | req_pair :: rest =>
        let s1 := { s with request_queue_ := rest }.record [Call.Read]
        if s1.terminated_ || stopped (n + 1) then
          (Outcome.returned Status.ok, s1)
        else
          let status := req_pair.1
          let req := req_pair.2
          if status.GetCode = RetCode.RET_TERMINATED then
            (Outcome.returned Status.ok, s1)
          else
            match HandleRequest c req s1 with
            | (Outcome.returned _, s2) => HandleLoop.loop c stopped rest (n + 2) s2
            | (Outcome.halted h, s2) => (Outcome.halted h, s2)

/-- `InferenceEngine::HandleLoop`, the body of the ingestion thread. -/
def HandleLoop (c : Collaborators) (stopped : Nat → Bool) (s : InferenceEngine) :
    Outcome × InferenceEngine :=
  HandleLoop.loop c stopped s.request_queue_ 0 s

/-- `InferenceEngine::StartHandler`: move-assign a new thread running `HandleLoop` to
`handle_thread_`. -/
def StartHandler (s : InferenceEngine) : Outcome × InferenceEngine :=
  if s.handle_thread_ then
    (Outcome.halted Halt.terminate, s)
  else
    (Outcome.returned Status.ok, { s with handle_thread_ := true }.record [Call.StartThread])

/-- `InferenceEngine::Start`. -/
def Start (s : InferenceEngine) : Outcome × InferenceEngine :=
  match s.batch_manager_ with
  | none => (Outcome.halted Halt.nullDeref, s)
  | some _ =>
    let s1 := s.record [Call.BatchManagerStart]
    match StartHandler s1 with
    | (Outcome.returned _, s2) => (Outcome.returned Status.ok, s2)
    | (Outcome.halted h, s2) => (Outcome.halted h, s2)

/-- `InferenceEngine::Stop`.  `handle_thread_.join()` waits for the ingestion thread, which
`StartHandler` set to run `HandleLoop` on this engine: the join returns when that run of
`HandleLoop` returns, and never returns when that run halts (in particular when it stays in
a `Read` that nothing releases).  The calls of the ingestion thread are its own and are not
added to the calls of `Stop`. -/
def Stop (c : Collaborators) (s : InferenceEngine) : Outcome × InferenceEngine :=
  if s.terminated_ then
    (Outcome.returned Status.ok, s)
  else
    let s1 := { s with terminated_ := true }.record [Call.SetTerminated]
    if !s1.handle_thread_ then
      (Outcome.halted Halt.notJoinable, s1.record [Call.Join])
    else
      match (HandleLoop c c.stopped s).1 with
      | Outcome.halted h => (Outcome.halted h, s1.record [Call.Join])
      | Outcome.returned _ =>
        let s2 := { s1 with handle_thread_ := false }.record [Call.Join]
        match s2.batch_manager_ with
        | none => (Outcome.halted Halt.nullDeref, s2)
        | some _ =>
          let status := c.WaitAllDone s2.calls
          let s3 := s2.record [Call.WaitAllDone]
          let s4 :=
            if !status.OK then
              s3.record [Call.LogError ("Wait all requests done error:" ++ c.ToString status)]
            else s3
          (Outcome.returned Status.ok, s4.record [Call.BatchManagerStop])

/-- Run `g` after `f` when `f` returned; a `Halt` of `f` ends the sequence. -/
def andThen (f g : InferenceEngine → Outcome × InferenceEngine)
    (s : InferenceEngine) : Outcome × InferenceEngine :=
  match f s with
  | (Outcome.returned _, s1) => g s1
  | (Outcome.halted h, s1) => (Outcome.halted h, s1)

/-! ## The streaming iterator -/

/-- The member variables of `StreamingIterator`. -/
structure StreamingIterator where
  request_ : Option Request
  cur_index_ : Nat
  last_token_fetched_ : Bool
  deriving DecidableEq, Repr

/-- The constructor `StreamingIterator(const std::shared_ptr<Request> request)`; a null
`request` is dereferenced by the body, so nothing is constructed. -/
def StreamingIterator.new (request : Option Request) : Option StreamingIterator :=
  match request with
  | none => none
  | some r =>
    some { request_ := some r
           cur_index_ := r.input_tokens.length
           last_token_fetched_ := false }

/-! ## Observations on a call history -/

/-- The calls made between the engine `s` and a later engine `s1`. -/
def callsSince (s s1 : InferenceEngine) : List Call :=
  s1.calls.drop s.calls.length

/-- The requests handed to `HandleRequest`, in call order. -/
def handledRequests : List Call → List Request
  | [] => []
  | Call.HandleRequest req :: cs => req :: handledRequests cs
  | _ :: cs => handledRequests cs

/-- The number of `Read`s performed on the request channel. -/
def reads : List Call → Nat
  | [] => 0
  | Call.Read :: cs => reads cs + 1
  | _ :: cs => reads cs

/-- Whether a call is an operation on the request channel. -/
def Call.onChannel : Call → Bool
  | Call.Read => true
  | Call.Write _ => true
  | Call.Close => true
  | _ => false

/-- Whether a call releases a `Read` blocked on the request channel: a `Write` of an item
with a terminal status, or `Close`. -/
def Call.releasesRead : Call → Bool
  | Call.Write item => decide (item.1.GetCode = RetCode.RET_TERMINATED)
  | Call.Close => true
  | _ => false

/-- Whether a call is the error log line of `Stop`. -/
def Call.isLogError : Call → Bool
  | Call.LogError _ => true
  | _ => false

/-- A call history in which, between the store to `terminated_` and the join of the
ingestion thread, some call releases a blocked `Read`. -/
def unblocksBeforeJoin (cs : List Call) : Prop :=
  ∃ pre mid post, cs = pre ++ [Call.SetTerminated] ++ mid ++ [Call.Join] ++ post ∧
    ∃ e ∈ mid, e.releasesRead = true

/-- The calls the `for` loop of `Initialize` makes for a list of model configs: `Load` then
`RegisterModelInstance` for each config, in list order. -/
def loadCalls (context : Option Context) : List ModelConfig → List Call
  | [] => []
  | model_config :: rest =>
    Call.Load { model_config := model_config, context := context } ::
      Call.RegisterModelInstance { model_config := model_config, context := context } ::
        loadCalls context rest

/-- The model instances on which `Load` was called, in call order. -/
def loadedModels : List Call → List ModelInstance
  | [] => []
  | Call.Load model_instance :: cs => model_instance :: loadedModels cs
  | _ :: cs => loadedModels cs

/-- The model instances passed to `BatchManager::RegisterModelInstance`, in call order. -/
def registeredModels : List Call → List ModelInstance
  | [] => []
  | Call.RegisterModelInstance model_instance :: cs => model_instance :: registeredModels cs
  | _ :: cs => registeredModels cs

/-! ## Concrete inputs -/

/-- A BatchManager that rejects a request without token sequences and admits the others;
its `WaitAllDone` fails. -/
def sampleCollaborators : Collaborators :=
  { ToString := fun _ => "status"
    Enqueue := fun _ _ _ tokens _ _ =>
      if tokens.isEmpty then Status.error RetCode.RET_INVALID_ARGUMENT "no tokens"
      else Status.ok
    WaitAllDone := fun _ => Status.error (RetCode.RET_OTHER 7) "not drained"
    stopped := fun _ => false }

/-- A BatchManager that admits every request and drains at once. -/
def admitAll : Collaborators :=
  { ToString := fun _ => "status"
    Enqueue := fun _ _ _ _ _ _ => Status.ok
    WaitAllDone := fun _ => Status.ok
    stopped := fun _ => false }

/-- A request with one sequence of three input tokens. -/
def sampleRequest : Request :=
  { req_id := 1, model_name := "llama", tokens := [[5, 6, 7]],
    sampling_configs := [{ tag := 0 }], waiter := { tag := 1 }, input_tokens := [5, 6, 7] }

/-- A request without token sequences, which the sample BatchManager rejects. -/
def emptyRequest : Request :=
  { req_id := 2, model_name := "llama", tokens := [],
    sampling_configs := [], waiter := { tag := 2 }, input_tokens := [] }

/-- The terminal sentinel of the channel. -/
def sentinel : Status × Request :=
  (Status.error RetCode.RET_TERMINATED "terminated", emptyRequest)

/-- An environment with every configuration section and two models. -/
def sampleEnvironment : Environment :=
  { GetTensorParallelSize := 2
    GetPipeLineParallelSize := 1
    GetBlockManagerConfig := (Status.ok, { tag := 10 })
    GetBatchManagerConfig := (Status.ok, { tag := 20 })
    GetModelList := (Status.ok, [{ tag := 31 }, { tag := 32 }]) }

/-- An environment whose model list cannot be obtained. -/
def noModelListEnvironment : Environment :=
  { GetTensorParallelSize := 2
    GetPipeLineParallelSize := 1
    GetBlockManagerConfig := (Status.ok, { tag := 10 })
    GetBatchManagerConfig := (Status.ok, { tag := 20 })
    GetModelList := (Status.error (RetCode.RET_OTHER 3) "no model list", []) }

/-- The channel content used in the examples: a rejected request, an admitted request, the
sentinel, and one more request behind the sentinel. -/
def sampleQueue : List (Status × Request) :=
  [(Status.ok, emptyRequest), (Status.ok, sampleRequest), sentinel, (Status.ok, sampleRequest)]

/-- The engine constructed over the sample environment. -/
def sampleEngine : InferenceEngine :=
  InferenceEngine.new sampleCollaborators (some sampleEnvironment) sampleQueue

/-- The sample engine after `Start`. -/
def startedEngine : InferenceEngine :=
  (Start sampleEngine).2

/-- The sample engine after `Start` and `Stop`. -/
def stoppedEngine : InferenceEngine :=
  (Stop sampleCollaborators startedEngine).2

/-- The BatchManager that `Initialize` builds over the sample environment. -/
def sampleBatchManager : BatchManager :=
  { batch_manager_config := { tag := 20 }
    context := some { tensor_parallel_size := 2, pipeline_parallel_size := 1 } }

/-- The engine constructed over the environment without a model list. -/
def halfBuiltEngine : InferenceEngine :=
  InferenceEngine.new sampleCollaborators (some noModelListEnvironment) sampleQueue

/-! ## Theorems -/

/-- Recording two batches of calls is recording their concatenation. -/
theorem record_record (s : InferenceEngine) (as bs : List Call) :
    (s.record as).record bs = s.record (as ++ bs) := by
  simp [InferenceEngine.record, List.append_assoc]

/-- The calls made since `s` by an engine whose history is `s.calls ++ cs` are `cs`. -/
theorem callsSince_of_calls (s s1 : InferenceEngine) (cs : List Call)
    (h : s1.calls = s.calls ++ cs) : callsSince s s1 = cs := by
  simp [callsSince, h]

/-- With a BatchManager in place, `HandleRequest` returns and records its call and one
`Enqueue`. -/
theorem HandleRequest_run (c : Collaborators) (req : Request) (s : InferenceEngine)
    (bm : BatchManager) (hbm : s.batch_manager_ = some bm) :
    HandleRequest c req s =
      (Outcome.returned
        (c.Enqueue (s.calls ++ [Call.HandleRequest req]) req.req_id req.model_name req.tokens
          req.sampling_configs req.waiter),
       s.record [Call.HandleRequest req,
         Call.Enqueue req.req_id req.model_name req.tokens req.sampling_configs req.waiter]) := by
  unfold HandleRequest
  simp only [InferenceEngine.record, hbm]
  cases hst : c.Enqueue (s.calls ++ [Call.HandleRequest req]) req.req_id req.model_name
      req.tokens req.sampling_configs req.waiter <;>
    simp [Status.OK, List.append_assoc]

/-- C1: `HandleRequest` returns the admission status unchanged.  For every request, every
engine holding a BatchManager and every behaviour of `BatchManager::Enqueue`, the call
returns exactly the status `Enqueue` gave for the request's id, model name, tokens, sampling
configs and waiter, and the calls it makes are its own entry followed by that single
`Enqueue`; nothing else of the engine changes. -/
theorem HandleRequest_returns_admission_status (c : Collaborators) (req : Request)
    (s : InferenceEngine) (bm : BatchManager) (hbm : s.batch_manager_ = some bm) :
    (HandleRequest c req s).1 =
        Outcome.returned
          (c.Enqueue (s.calls ++ [Call.HandleRequest req]) req.req_id req.model_name
            req.tokens req.sampling_configs req.waiter) ∧
      callsSince s (HandleRequest c req s).2 =
        [Call.HandleRequest req,
         Call.Enqueue req.req_id req.model_name req.tokens req.sampling_configs req.waiter] ∧
      (HandleRequest c req s).2 = { s with calls := (HandleRequest c req s).2.calls } := by
  rw [HandleRequest_run c req s bm hbm]
  refine ⟨rfl, ?_, rfl⟩
  exact callsSince_of_calls _ _ _ rfl

/-- Witness of C1 on the sample engine, with a request the BatchManager rejects. -/
theorem HandleRequest_returns_admission_status_witness :
    sampleEngine.batch_manager_ = some sampleBatchManager ∧
      (HandleRequest sampleCollaborators emptyRequest sampleEngine).1 =
        Outcome.returned
          (sampleCollaborators.Enqueue (sampleEngine.calls ++ [Call.HandleRequest emptyRequest])
            emptyRequest.req_id emptyRequest.model_name emptyRequest.tokens
            emptyRequest.sampling_configs emptyRequest.waiter) ∧
      callsSince sampleEngine (HandleRequest sampleCollaborators emptyRequest sampleEngine).2 =
        [Call.HandleRequest emptyRequest,
         Call.Enqueue emptyRequest.req_id emptyRequest.model_name emptyRequest.tokens
           emptyRequest.sampling_configs emptyRequest.waiter] ∧
      (HandleRequest sampleCollaborators emptyRequest sampleEngine).2 =
        { sampleEngine with
          calls := (HandleRequest sampleCollaborators emptyRequest sampleEngine).2.calls } :=
  ⟨rfl, HandleRequest_returns_admission_status sampleCollaborators emptyRequest sampleEngine
    sampleBatchManager rfl⟩

/-- `Stop` on an engine whose flag is set returns OK and changes nothing. -/
theorem Stop_of_terminated (c : Collaborators) (s : InferenceEngine)
    (h : s.terminated_ = true) : Stop c s = (Outcome.returned Status.ok, s) := by
  simp [Stop, h]

/-- `Stop` with the flag unset on an engine without a joinable thread: the join throws. -/
theorem Stop_not_joinable (c : Collaborators) (s : InferenceEngine)
    (h1 : s.terminated_ = false) (h2 : s.handle_thread_ = false) :
    Stop c s =
      (Outcome.halted Halt.notJoinable,
       { s with terminated_ := true, calls := s.calls ++ [Call.SetTerminated, Call.Join] }) := by
  unfold Stop
  simp [h1, h2, InferenceEngine.record, List.append_assoc]

/-- `Stop` with the flag unset when the ingestion thread never leaves `HandleLoop`: `Stop`
does not get past the join. -/
theorem Stop_thread_halts (c : Collaborators) (s : InferenceEngine) (h : Halt)
    (h1 : s.terminated_ = false) (h2 : s.handle_thread_ = true)
    (h4 : (HandleLoop c c.stopped s).1 = Outcome.halted h) :
    Stop c s =
      (Outcome.halted h,
       { s with terminated_ := true, calls := s.calls ++ [Call.SetTerminated, Call.Join] }) := by
  unfold Stop
  simp [h1, h2, h4, InferenceEngine.record, List.append_assoc]

/-- `Stop` with the flag unset when the join returns and `batch_manager_` is null. -/
theorem Stop_no_batch_manager (c : Collaborators) (s : InferenceEngine) (st : Status)
    (h1 : s.terminated_ = false) (h2 : s.handle_thread_ = true)
    (h3 : s.batch_manager_ = none)
    (h4 : (HandleLoop c c.stopped s).1 = Outcome.returned st) :
    Stop c s =
      (Outcome.halted Halt.nullDeref,
       { s with
         terminated_ := true
         handle_thread_ := false
         calls := s.calls ++ [Call.SetTerminated, Call.Join] }) := by
  unfold Stop
  simp [h1, h2, h3, h4, InferenceEngine.record, List.append_assoc]

/-- The complete effect of `Stop` on an engine whose flag is unset, whose ingestion thread
is joinable and leaves `HandleLoop`, and which has a BatchManager. -/
theorem Stop_run (c : Collaborators) (s : InferenceEngine) (bm : BatchManager) (st : Status)
    (h1 : s.terminated_ = false) (h2 : s.handle_thread_ = true)
    (h3 : s.batch_manager_ = some bm)
    (h4 : (HandleLoop c c.stopped s).1 = Outcome.returned st) :
    Stop c s =
      (Outcome.returned Status.ok,
       { s with
         terminated_ := true
         handle_thread_ := false
         calls := s.calls ++
           ([Call.SetTerminated, Call.Join, Call.WaitAllDone] ++
             (if (c.WaitAllDone (s.calls ++ [Call.SetTerminated, Call.Join])).OK then []
              else [Call.LogError ("Wait all requests done error:" ++
                c.ToString (c.WaitAllDone (s.calls ++ [Call.SetTerminated, Call.Join])))]) ++
             [Call.BatchManagerStop]) }) := by
  unfold Stop
  simp only [h1, h2, h3, h4, InferenceEngine.record, List.append_assoc, List.singleton_append,
    List.cons_append, List.nil_append, Bool.false_eq_true, if_false, Bool.not_true]
  cases (c.WaitAllDone (s.calls ++ [Call.SetTerminated, Call.Join])).OK <;> simp

/-- After `Stop`, however it ends, the flag is set. -/
theorem Stop_sets_terminated (c : Collaborators) (s : InferenceEngine) :
    (Stop c s).2.terminated_ = true := by
  cases h1 : s.terminated_
  · cases h2 : s.handle_thread_
    · rw [Stop_not_joinable c s h1 h2]
    · cases h4 : (HandleLoop c c.stopped s).1 with
      | halted h => rw [Stop_thread_halts c s h h1 h2 h4]
      | returned st =>
        cases h3 : s.batch_manager_ with
        | none => rw [Stop_no_batch_manager c s st h1 h2 h3 h4]
        | some bm => rw [Stop_run c s bm st h1 h2 h3 h4]
  · rw [Stop_of_terminated c s h1]
    exact h1

/-- When `Stop` returns, it returns OK. -/
theorem Stop_returns_ok (c : Collaborators) (s : InferenceEngine) (st : Status)
    (h : (Stop c s).1 = Outcome.returned st) : st = Status.ok := by
  cases h1 : s.terminated_
  · cases h2 : s.handle_thread_
    · rw [Stop_not_joinable c s h1 h2] at h
      exact Outcome.noConfusion h
    · cases h4 : (HandleLoop c c.stopped s).1 with
      | halted e =>
        rw [Stop_thread_halts c s e h1 h2 h4] at h
        exact Outcome.noConfusion h
      | returned st2 =>
        cases h3 : s.batch_manager_ with
        | none =>
          rw [Stop_no_batch_manager c s st2 h1 h2 h3 h4] at h
          exact Outcome.noConfusion h
        | some bm =>
          rw [Stop_run c s bm st2 h1 h2 h3 h4] at h
          exact (Outcome.returned.inj h).symm
  · rw [Stop_of_terminated c s h1] at h
    exact (Outcome.returned.inj h).symm

/-- C4: `Stop` is idempotent.  On every engine `s` whose termination flag is set, `Stop`
returns OK, makes no call at all (no join, no `WaitAllDone`, no `BatchManager::Stop`) and
leaves the engine unchanged; every `Stop`, on any engine `s0`, leaves the flag set, so
`Stop` followed by `Stop` ends as a single `Stop` does, with the same calls and the same
final engine. -/
theorem Stop_idempotent (c : Collaborators) (s s0 : InferenceEngine)
    (h : s.terminated_ = true) :
    Stop c s = (Outcome.returned Status.ok, s) ∧
      callsSince s (Stop c s).2 = [] ∧
      (Stop c s0).2.terminated_ = true ∧
      andThen (Stop c) (Stop c) s0 = Stop c s0 := by
  refine ⟨Stop_of_terminated c s h, ?_, Stop_sets_terminated c s0, ?_⟩
  · rw [Stop_of_terminated c s h]
    simp [callsSince]
  · unfold andThen
    have h2 := Stop_sets_terminated c s0
    have h3 := Stop_returns_ok c s0
    rcases hst : Stop c s0 with ⟨o, s1⟩
    rw [hst] at h2 h3
    cases o with
    | returned st =>
      simp only
      rw [Stop_of_terminated c s1 h2, h3 st rfl]
    | halted e => rfl

/-- Witness of C4: the engine left by a first `Stop`, and the started engine for the
two-call sequence. -/
theorem Stop_idempotent_witness :
    stoppedEngine.terminated_ = true ∧
      Stop sampleCollaborators stoppedEngine = (Outcome.returned Status.ok, stoppedEngine) ∧
      callsSince stoppedEngine (Stop sampleCollaborators stoppedEngine).2 = [] ∧
      (Stop sampleCollaborators startedEngine).2.terminated_ = true ∧
      andThen (Stop sampleCollaborators) (Stop sampleCollaborators) startedEngine =
        Stop sampleCollaborators startedEngine :=
  ⟨rfl, Stop_idempotent sampleCollaborators stoppedEngine startedEngine rfl⟩

/-- A history without a releasing call has none between the flag store and the join. -/
theorem not_unblocksBeforeJoin (cs : List Call) (h : ∀ e ∈ cs, e.releasesRead = false) :
    ¬ unblocksBeforeJoin cs := by
  rintro ⟨pre, mid, post, hcs, e, he, hrel⟩
  have hmem : e ∈ cs := by
    rw [hcs]
    simp [he]
  rw [h e hmem] at hrel
  exact Bool.noConfusion hrel

/-- C6, as stated, fails: on the started sample engine `Stop` stores the flag, joins, waits
and stops the BatchManager; no call between the store and the join releases a blocked
`Read`, and no call of `Stop` touches the request channel at all. -/
theorem Stop_unblocks_before_join_counterexample :
    startedEngine.terminated_ = false ∧
      (callsSince startedEngine (Stop sampleCollaborators startedEngine).2).filter
          (fun e => !e.isLogError) =
        [Call.SetTerminated, Call.Join, Call.WaitAllDone, Call.BatchManagerStop] ∧
      ¬ unblocksBeforeJoin (callsSince startedEngine (Stop sampleCollaborators startedEngine).2) := by
  refine ⟨rfl, by decide, ?_⟩
  apply not_unblocksBeforeJoin
  decide

/-- C6, amended: on an engine with the flag unset, the first two calls of `Stop` are the
store to the flag and the join of the ingestion thread, with nothing in between, and no call
of `Stop` is an operation on the request channel (no `Read`, no `Write`, no `Close`). -/
theorem Stop_joins_without_channel_action (c : Collaborators) (s : InferenceEngine)
    (h : s.terminated_ = false) :
    (∃ rest, callsSince s (Stop c s).2 = Call.SetTerminated :: Call.Join :: rest) ∧
      ∀ e ∈ callsSince s (Stop c s).2, e.onChannel = false := by
  have hshort : ∀ s1 : InferenceEngine, s1.calls = s.calls ++ [Call.SetTerminated, Call.Join] →
      (∃ rest, callsSince s s1 = Call.SetTerminated :: Call.Join :: rest) ∧
        ∀ e ∈ callsSince s s1, e.onChannel = false := by
    intro s1 hs1
    rw [callsSince_of_calls s s1 _ hs1]
    exact ⟨⟨[], rfl⟩, by simp [Call.onChannel]⟩
  cases h2 : s.handle_thread_
  · rw [Stop_not_joinable c s h h2]
    exact hshort _ rfl
  · cases h4 : (HandleLoop c c.stopped s).1 with
    | halted e =>
      rw [Stop_thread_halts c s e h h2 h4]
      exact hshort _ rfl
    | returned st =>
      cases h3 : s.batch_manager_ with
      | none =>
        rw [Stop_no_batch_manager c s st h h2 h3 h4]
        exact hshort _ rfl
      | some bm =>
        rw [Stop_run c s bm st h h2 h3 h4, callsSince_of_calls _ _ _ rfl]
        cases (c.WaitAllDone (s.calls ++ [Call.SetTerminated, Call.Join])).OK <;>
          simp [Call.onChannel]

/-- Witness of the amended C6 on the started sample engine. -/
theorem Stop_joins_without_channel_action_witness :
    startedEngine.terminated_ = false ∧
      (∃ rest, callsSince startedEngine (Stop sampleCollaborators startedEngine).2 =
        Call.SetTerminated :: Call.Join :: rest) ∧
      ∀ e ∈ callsSince startedEngine (Stop sampleCollaborators startedEngine).2,
        e.onChannel = false :=
  ⟨rfl, Stop_joins_without_channel_action sampleCollaborators startedEngine rfl⟩

/-- C10: the streaming cursor starts at the input length.  For every request, the iterator
constructed from it holds that request, has its current index equal to the number of input
tokens and its last-token-fetched flag false; so in any token sequence made of the input
followed by generated tokens, the positions from the cursor on are exactly the generated
tokens, and the first input token is never at or after the cursor. -/
theorem StreamingIterator_cursor_starts_at_input_length (r : Request) :
    ∃ it, StreamingIterator.new (some r) = some it ∧
      it.request_ = some r ∧
      it.cur_index_ = r.input_tokens.length ∧
      it.last_token_fetched_ = false ∧
      ∀ generated : List Int,
        (r.input_tokens ++ generated).drop it.cur_index_ = generated ∧
          (r.input_tokens ++ generated).take it.cur_index_ = r.input_tokens := by
  refine ⟨_, rfl, rfl, rfl, rfl, ?_⟩
  intro generated
  simp

/-- The `for` loop of `Initialize` appends one instance per config to `model_instances_`
and makes the calls `loadCalls`. -/
theorem loadModels_run (context : Option Context) (model_configs : List ModelConfig)
    (s : InferenceEngine) :
    loadModels context model_configs s =
      { s with
        model_instances_ := s.model_instances_ ++
          model_configs.map (fun model_config => { model_config := model_config, context := context })
        calls := s.calls ++ loadCalls context model_configs } := by
  induction model_configs generalizing s with
  | nil => simp [loadModels, loadCalls]
  | cons model_config rest ih =>
    simp [loadModels, loadCalls, ih, InferenceEngine.record, List.append_assoc]

/-- The instances loaded by `loadCalls` are one per config, in list order. -/
theorem loadedModels_loadCalls (context : Option Context) (model_configs : List ModelConfig) :
    loadedModels (loadCalls context model_configs) =
      model_configs.map (fun model_config => { model_config := model_config, context := context }) := by
  induction model_configs with
  | nil => rfl
  | cons model_config rest ih => simp [loadCalls, loadedModels, ih]

/-- The instances registered by `loadCalls` are one per config, in list order. -/
theorem registeredModels_loadCalls (context : Option Context) (model_configs : List ModelConfig) :
    registeredModels (loadCalls context model_configs) =
      model_configs.map (fun model_config => { model_config := model_config, context := context }) := by
  induction model_configs with
  | nil => rfl
  | cons model_config rest ih => simp [loadCalls, registeredModels, ih]

/-- C7: `Initialize` fails with InvalidArgument on a missing configuration section.  When
the Environment singleton is null, or `GetBlockManagerConfig`, `GetBatchManagerConfig` or
`GetModelList` returns a status that is not OK (whatever its code), `Initialize` returns a
status with code `RET_INVALID_ARGUMENT`, calls neither `Load` nor `RegisterModelInstance`,
and leaves `model_instances_` as it was. -/
theorem Initialize_fails_with_invalid_argument (c : Collaborators) (env : Option Environment)
    (s : InferenceEngine)
    (h : env = none ∨ ∃ e, env = some e ∧
      (e.GetBlockManagerConfig.1.OK = false ∨ e.GetBatchManagerConfig.1.OK = false ∨
        e.GetModelList.1.OK = false)) :
    (Initialize c env s).1.GetCode = RetCode.RET_INVALID_ARGUMENT ∧
      loadedModels (callsSince s (Initialize c env s).2) = [] ∧
      registeredModels (callsSince s (Initialize c env s).2) = [] ∧
      (Initialize c env s).2.model_instances_ = s.model_instances_ := by
  rcases h with h | ⟨e, h, hfail⟩
  · subst h
    simp [Initialize, Status.GetCode, callsSince, loadedModels, registeredModels]
  · subst h
    cases h1 : e.GetBlockManagerConfig.1.OK
    · simp [Initialize, h1, Status.GetCode, callsSince, InferenceEngine.record, loadedModels,
        registeredModels]
    · cases h2 : e.GetBatchManagerConfig.1.OK
      · simp [Initialize, h1, h2, Status.GetCode, callsSince, InferenceEngine.record,
          loadedModels, registeredModels]
      · cases h3 : e.GetModelList.1.OK
        · simp [Initialize, h1, h2, h3, Status.GetCode, callsSince, InferenceEngine.record,
            loadedModels, registeredModels]
        · simp [h1, h2, h3] at hfail

/-- Witness of C7: the environment whose model list cannot be obtained, with a failure code
other than InvalidArgument. -/
theorem Initialize_fails_with_invalid_argument_witness :
    (some noModelListEnvironment = none ∨ ∃ e, some noModelListEnvironment = some e ∧
      (e.GetBlockManagerConfig.1.OK = false ∨ e.GetBatchManagerConfig.1.OK = false ∨
        e.GetModelList.1.OK = false)) ∧
    ((Initialize sampleCollaborators (some noModelListEnvironment)
        (InferenceEngine.fresh sampleQueue)).1.GetCode = RetCode.RET_INVALID_ARGUMENT ∧
      loadedModels (callsSince (InferenceEngine.fresh sampleQueue)
        (Initialize sampleCollaborators (some noModelListEnvironment)
          (InferenceEngine.fresh sampleQueue)).2) = [] ∧
      registeredModels (callsSince (InferenceEngine.fresh sampleQueue)
        (Initialize sampleCollaborators (some noModelListEnvironment)
          (InferenceEngine.fresh sampleQueue)).2) = [] ∧
      (Initialize sampleCollaborators (some noModelListEnvironment)
        (InferenceEngine.fresh sampleQueue)).2.model_instances_ =
          (InferenceEngine.fresh sampleQueue).model_instances_) :=
  ⟨Or.inr ⟨noModelListEnvironment, rfl, Or.inr (Or.inr rfl)⟩,
    Initialize_fails_with_invalid_argument sampleCollaborators (some noModelListEnvironment)
      (InferenceEngine.fresh sampleQueue)
      (Or.inr ⟨noModelListEnvironment, rfl, Or.inr (Or.inr rfl)⟩)⟩

/-- The complete effect of `Initialize` when the three configuration sections are
obtained. -/
theorem Initialize_run (c : Collaborators) (e : Environment) (s : InferenceEngine)
    (h1 : e.GetBlockManagerConfig.1.OK = true) (h2 : e.GetBatchManagerConfig.1.OK = true)
    (h3 : e.GetModelList.1.OK = true) :
    Initialize c (some e) s =
      (Status.ok,
       { s with
         context_ := some (Context.mk e.GetTensorParallelSize e.GetPipeLineParallelSize)
         block_manager_ := some
           { block_manager_config := e.GetBlockManagerConfig.2
             context := some (Context.mk e.GetTensorParallelSize e.GetPipeLineParallelSize) }
         batch_manager_ := some
           { batch_manager_config := e.GetBatchManagerConfig.2
             context := some (Context.mk e.GetTensorParallelSize e.GetPipeLineParallelSize) }
         model_instances_ := s.model_instances_ ++
           e.GetModelList.2.map (fun model_config =>
             { model_config := model_config
               context := some (Context.mk e.GetTensorParallelSize e.GetPipeLineParallelSize) })
         calls := s.calls ++
           ([Call.NewContext e.GetTensorParallelSize e.GetPipeLineParallelSize,
             Call.NewBlockManager e.GetBlockManagerConfig.2, Call.SetBlockManager,
             Call.NewBatchManager e.GetBatchManagerConfig.2] ++
            loadCalls (some (Context.mk e.GetTensorParallelSize e.GetPipeLineParallelSize))
              e.GetModelList.2) }) := by
  simp [Initialize, h1, h2, h3, loadModels_run, InferenceEngine.record, List.append_assoc]

/-- C8: `Initialize` loads and registers every configured model.  When the block-manager
config, the batch-manager config and the model list are obtained, `Initialize` returns OK;
after the four construction calls its calls are, for each config of the list in order,
`Load` on the instance built from that config followed by `RegisterModelInstance` of the
same instance, so each config is loaded once and registered once, in list order; the new
model instances are appended to `model_instances_` in list order, and the engine built by
the constructor has exactly one instance per config, in the order of the config list. -/
theorem Initialize_loads_and_registers_every_model (c : Collaborators) (e : Environment)
    (s : InferenceEngine) (q : List (Status × Request))
    (h1 : e.GetBlockManagerConfig.1.OK = true) (h2 : e.GetBatchManagerConfig.1.OK = true)
    (h3 : e.GetModelList.1.OK = true) :
    (Initialize c (some e) s).1 = Status.ok ∧
      callsSince s (Initialize c (some e) s).2 =
        [Call.NewContext e.GetTensorParallelSize e.GetPipeLineParallelSize,
         Call.NewBlockManager e.GetBlockManagerConfig.2, Call.SetBlockManager,
         Call.NewBatchManager e.GetBatchManagerConfig.2] ++
        loadCalls (some (Context.mk e.GetTensorParallelSize e.GetPipeLineParallelSize))
          e.GetModelList.2 ∧
      loadedModels (callsSince s (Initialize c (some e) s).2) =
        e.GetModelList.2.map (fun model_config =>
          { model_config := model_config
            context := some (Context.mk e.GetTensorParallelSize e.GetPipeLineParallelSize) }) ∧
      registeredModels (callsSince s (Initialize c (some e) s).2) =
        e.GetModelList.2.map (fun model_config =>
          { model_config := model_config
            context := some (Context.mk e.GetTensorParallelSize e.GetPipeLineParallelSize) }) ∧
      (Initialize c (some e) s).2.model_instances_ =
        s.model_instances_ ++ e.GetModelList.2.map (fun model_config =>
          { model_config := model_config
            context := some (Context.mk e.GetTensorParallelSize e.GetPipeLineParallelSize) }) ∧
      (InferenceEngine.new c (some e) q).model_instances_.map (fun m => m.model_config) =
        e.GetModelList.2 ∧
      (InferenceEngine.new c (some e) q).model_instances_.length = e.GetModelList.2.length := by
  have hnew : (InferenceEngine.new c (some e) q).model_instances_ =
      e.GetModelList.2.map (fun model_config =>
        { model_config := model_config
          context := some (Context.mk e.GetTensorParallelSize e.GetPipeLineParallelSize) }) := by
    simp [InferenceEngine.new, Initialize_run c e _ h1 h2 h3, InferenceEngine.fresh]
  rw [hnew, Initialize_run c e s h1 h2 h3, callsSince_of_calls _ _ _ rfl]
  refine ⟨rfl, rfl, ?_, ?_, rfl, ?_, ?_⟩
  · simp [loadedModels, loadedModels_loadCalls]
  · simp [registeredModels, registeredModels_loadCalls]
  · simp [Function.comp_def]
  · simp

/-- Witness of C8 on the sample environment with its two models. -/
theorem Initialize_loads_and_registers_every_model_witness :
    sampleEnvironment.GetBlockManagerConfig.1.OK = true ∧
      sampleEnvironment.GetBatchManagerConfig.1.OK = true ∧
      sampleEnvironment.GetModelList.1.OK = true ∧
      (InferenceEngine.new sampleCollaborators (some sampleEnvironment)
          sampleQueue).model_instances_.map (fun m => m.model_config) =
        sampleEnvironment.GetModelList.2 ∧
      registeredModels (callsSince (InferenceEngine.fresh sampleQueue)
          (Initialize sampleCollaborators (some sampleEnvironment)
            (InferenceEngine.fresh sampleQueue)).2) =
        sampleEnvironment.GetModelList.2.map (fun model_config =>
          { model_config := model_config
            context := some (Context.mk sampleEnvironment.GetTensorParallelSize
              sampleEnvironment.GetPipeLineParallelSize) }) :=
  ⟨rfl, rfl, rfl,
    (Initialize_loads_and_registers_every_model sampleCollaborators sampleEnvironment
      (InferenceEngine.fresh sampleQueue) sampleQueue rfl rfl rfl).2.2.2.2.2.1,
    (Initialize_loads_and_registers_every_model sampleCollaborators sampleEnvironment
      (InferenceEngine.fresh sampleQueue) sampleQueue rfl rfl rfl).2.2.2.1⟩

/-- C9 at a failing input.  Over the environment whose model list cannot be obtained,
`Initialize` returns a status with code `RET_INVALID_ARGUMENT`; the constructor hands back
the engine `Initialize` left, holding a BatchManager and no model instance, and nothing of
the status; `Start` on that engine returns OK after starting the BatchManager and the
ingestion thread. -/
theorem Start_after_failed_Initialize :
    (Initialize sampleCollaborators (some noModelListEnvironment)
        (InferenceEngine.fresh sampleQueue)).1.GetCode = RetCode.RET_INVALID_ARGUMENT ∧
      halfBuiltEngine =
        (Initialize sampleCollaborators (some noModelListEnvironment)
          (InferenceEngine.fresh sampleQueue)).2 ∧
      halfBuiltEngine.batch_manager_ = some sampleBatchManager ∧
      halfBuiltEngine.model_instances_ = [] ∧
      (Start halfBuiltEngine).1 = Outcome.returned Status.ok ∧
      callsSince halfBuiltEngine (Start halfBuiltEngine).2 =
        [Call.BatchManagerStart, Call.StartThread] ∧
      (Start halfBuiltEngine).2.handle_thread_ = true := by
  refine ⟨rfl, rfl, rfl, rfl, rfl, ?_, rfl⟩
  decide

/-- The requests handled in a concatenated history. -/
theorem handledRequests_append (as bs : List Call) :
    handledRequests (as ++ bs) = handledRequests as ++ handledRequests bs := by
  induction as with
  | nil => rfl
  | cons a as ih => cases a <;> simp [handledRequests, ih]

/-- The reads of a concatenated history. -/
theorem reads_append (as bs : List Call) : reads (as ++ bs) = reads as + reads bs := by
  induction as with
  | nil => simp [reads]
  | cons a as ih =>
    cases a <;> simp [reads, ih]
    omega

/-- One round of the loop that reads a non-terminal item with the flag unset hands the
request to `HandleRequest` and goes on with the rest of the channel. -/
theorem HandleLoop_loop_cons (c : Collaborators) (stopped : Nat → Bool) (bm : BatchManager)
    (p : Status × Request) (rest : List (Status × Request)) (n : Nat) (s : InferenceEngine)
    (hterm : s.terminated_ = false) (hbm : s.batch_manager_ = some bm)
    (h0 : stopped n = false) (h1 : stopped (n + 1) = false)
    (hp : p.1.GetCode ≠ RetCode.RET_TERMINATED) :
    HandleLoop.loop c stopped (p :: rest) n s =
      HandleLoop.loop c stopped rest (n + 2)
        ({ s with request_queue_ := rest }.record
          [Call.Read, Call.HandleRequest p.2,
           Call.Enqueue p.2.req_id p.2.model_name p.2.tokens p.2.sampling_configs
             p.2.waiter]) := by
  have hr := HandleRequest_run c p.2 ({ s with request_queue_ := rest }.record [Call.Read]) bm hbm
  rw [HandleLoop.loop]
  simp only [hterm, h0, h1, Bool.or_self, Bool.false_eq_true, if_false, hp,
    InferenceEngine.record] at hr ⊢
  rw [hr]
  simp [List.append_assoc]

/-- The round of the loop that reads an item and then finds the flag set, or finds the
terminal status on the item, returns OK without handling the item. -/
theorem HandleLoop_loop_stop (c : Collaborators) (stopped : Nat → Bool)
    (x : Status × Request) (post : List (Status × Request)) (n : Nat) (s : InferenceEngine)
    (hterm : s.terminated_ = false) (h0 : stopped n = false)
    (hend : stopped (n + 1) = true ∨ x.1.GetCode = RetCode.RET_TERMINATED) :
    HandleLoop.loop c stopped (x :: post) n s =
      (Outcome.returned Status.ok, { s with request_queue_ := post }.record [Call.Read]) := by
  rw [HandleLoop.loop]
  simp only [hterm, h0, Bool.or_self, Bool.false_eq_true, if_false, InferenceEngine.record,
    Bool.false_or]
  by_cases h1 : stopped (n + 1) = true
  · simp [h1]
  · have hx : x.1.GetCode = RetCode.RET_TERMINATED := by
      rcases hend with h | h
      · exact absurd h h1
      · exact h
    simp [h1, hx]

/-- The loop of `HandleLoop` on a channel holding the non-terminal items `pre`, then `x`,
then `post`, when no load of the flag sees it set before the load that follows the read of
`x`, and either that load sees it set or `x` carries the terminal status: the loop returns
OK, has handled exactly the requests of `pre` in order, has read `pre` and `x` and nothing
else, and leaves `post` in the channel. -/
theorem HandleLoop_loop_stops (c : Collaborators) (stopped : Nat → Bool) (bm : BatchManager)
    (x : Status × Request) (post : List (Status × Request)) :
    ∀ (pre : List (Status × Request)) (n : Nat) (s : InferenceEngine),
      s.terminated_ = false → s.batch_manager_ = some bm →
      (∀ p ∈ pre, p.1.GetCode ≠ RetCode.RET_TERMINATED) →
      (∀ k, k < 2 * pre.length + 1 → stopped (n + k) = false) →
      (stopped (n + (2 * pre.length + 1)) = true ∨ x.1.GetCode = RetCode.RET_TERMINATED) →
      (HandleLoop.loop c stopped (pre ++ x :: post) n s).1 = Outcome.returned Status.ok ∧
        handledRequests (HandleLoop.loop c stopped (pre ++ x :: post) n s).2.calls =
          handledRequests s.calls ++ pre.map (fun p => p.2) ∧
        (HandleLoop.loop c stopped (pre ++ x :: post) n s).2.request_queue_ = post ∧
        reads (HandleLoop.loop c stopped (pre ++ x :: post) n s).2.calls =
          reads s.calls + (pre.length + 1) := by
  intro pre
  induction pre with
  | nil =>
    intro n s hterm _ _ hrun hend
    have h0 : stopped n = false := by simpa using hrun 0 (by simp)
    rw [List.nil_append, HandleLoop_loop_stop c stopped x post n s hterm h0 (by simpa using hend)]
    simp [InferenceEngine.record, handledRequests_append, reads_append, handledRequests, reads]
  | cons p pre ih =>
    intro n s hterm hbm hpre hrun hend
    have h0 : stopped n = false := by simpa using hrun 0 (by simp)
    have h1 : stopped (n + 1) = false := hrun 1 (by simp)
    have hp : p.1.GetCode ≠ RetCode.RET_TERMINATED := hpre p (by simp)
    rw [List.cons_append, HandleLoop_loop_cons c stopped bm p _ n s hterm hbm h0 h1 hp]
    have hih := ih (n + 2)
      ({ s with request_queue_ := pre ++ x :: post }.record
        [Call.Read, Call.HandleRequest p.2,
         Call.Enqueue p.2.req_id p.2.model_name p.2.tokens p.2.sampling_configs p.2.waiter])
      hterm hbm (fun q hq => hpre q (by simp [hq]))
      (fun k hk => by
        have := hrun (k + 2) (by simp only [List.length_cons]; omega)
        simpa [Nat.add_assoc, Nat.add_comm 2 k] using this)
      (by
        rcases hend with h | h
        · left
          have e : n + 2 + (2 * pre.length + 1) = n + (2 * (p :: pre).length + 1) := by
            simp only [List.length_cons]; omega
          rw [e]; exact h
        · right; exact h)
    obtain ⟨ha, hb, hc, hd⟩ := hih
    refine ⟨ha, ?_, hc, ?_⟩
    · rw [hb]
      simp [InferenceEngine.record, handledRequests_append, handledRequests]
    · rw [hd]
      simp only [InferenceEngine.record, reads_append, reads, List.length_cons]
      omega

/-- A channel content holding a terminal-status item splits at the first such item. -/
theorem split_at_first_terminal (items : List (Status × Request))
    (h : ∃ t ∈ items, t.1.GetCode = RetCode.RET_TERMINATED) :
    ∃ pre x post, items = pre ++ x :: post ∧
      pre = items.takeWhile (fun p => decide (p.1.GetCode ≠ RetCode.RET_TERMINATED)) ∧
      x.1.GetCode = RetCode.RET_TERMINATED ∧
      ∀ p ∈ pre, p.1.GetCode ≠ RetCode.RET_TERMINATED := by
  induction items with
  | nil =>
    obtain ⟨t, ht, _⟩ := h
    simp at ht
  | cons a items ih =>
    by_cases ha : a.1.GetCode = RetCode.RET_TERMINATED
    · exact ⟨[], a, items, rfl, by simp [List.takeWhile, ha], ha, by simp⟩
    · have h2 : ∃ t ∈ items, t.1.GetCode = RetCode.RET_TERMINATED := by
        obtain ⟨t, ht, hterm⟩ := h
        rcases List.mem_cons.mp ht with rfl | ht
        · exact absurd hterm ha
        · exact ⟨t, ht, hterm⟩
      obtain ⟨pre, x, post, hsplit, hpre, hx, hall⟩ := ih h2
      refine ⟨a :: pre, x, post, by rw [List.cons_append, ← hsplit], ?_, hx, ?_⟩
      · have hd : decide (a.1.GetCode ≠ RetCode.RET_TERMINATED) = true := decide_eq_true ha
        simp only [List.takeWhile_cons, hd, if_true, ← hpre]
      · intro p hp
        rcases List.mem_cons.mp hp with rfl | hp
        · exact ha
        · exact hall p hp

/-- C3: a terminal-status read or the termination flag ends the ingestion loop.  Let the
channel hold the items `pre`, none with status code `RET_TERMINATED`, then `x`, then `post`,
and let no load of the flag see it set before the load that follows the read of `x`.  If `x`
carries status code `RET_TERMINATED` (so `x` is the first such item), or if the flag is set
when the read of `x` returns, then `HandleLoop` returns OK, the requests it passed to
`HandleRequest` are those of `pre` and not that of `x`, it has performed exactly the reads
of `pre` and of `x`, and `post` is left unread in the channel. -/
theorem HandleLoop_ends_on_terminal_or_flag (c : Collaborators) (stopped : Nat → Bool)
    (s : InferenceEngine) (bm : BatchManager) (pre : List (Status × Request))
    (x : Status × Request) (post : List (Status × Request))
    (hterm : s.terminated_ = false) (hbm : s.batch_manager_ = some bm)
    (hq : s.request_queue_ = pre ++ x :: post)
    (hpre : ∀ p ∈ pre, p.1.GetCode ≠ RetCode.RET_TERMINATED)
    (hrun : ∀ k, k < 2 * pre.length + 1 → stopped k = false)
    (hend : x.1.GetCode = RetCode.RET_TERMINATED ∨ stopped (2 * pre.length + 1) = true) :
    (HandleLoop c stopped s).1 = Outcome.returned Status.ok ∧
      handledRequests (HandleLoop c stopped s).2.calls =
        handledRequests s.calls ++ pre.map (fun p => p.2) ∧
      reads (HandleLoop c stopped s).2.calls = reads s.calls + (pre.length + 1) ∧
      (HandleLoop c stopped s).2.request_queue_ = post := by
  have h := HandleLoop_loop_stops c stopped bm x post pre 0 s hterm hbm hpre
    (fun k hk => by simpa using hrun k hk) (by simpa using hend.symm)
  rw [← hq] at h
  exact ⟨h.1, h.2.1, h.2.2.2, h.2.2.1⟩

/-- Witness of C3 with a terminal item: the sample queue holds two requests before the
sentinel and one behind it. -/
theorem HandleLoop_ends_on_terminal_or_flag_witness :
    startedEngine.terminated_ = false ∧
      startedEngine.batch_manager_ = some sampleBatchManager ∧
      startedEngine.request_queue_ =
        [(Status.ok, emptyRequest), (Status.ok, sampleRequest)] ++
          sentinel :: [(Status.ok, sampleRequest)] ∧
      sentinel.1.GetCode = RetCode.RET_TERMINATED ∧
      (HandleLoop sampleCollaborators (fun _ => false) startedEngine).1 =
        Outcome.returned Status.ok ∧
      handledRequests (HandleLoop sampleCollaborators (fun _ => false) startedEngine).2.calls =
        handledRequests startedEngine.calls ++
          [(Status.ok, emptyRequest), (Status.ok, sampleRequest)].map (fun p => p.2) ∧
      reads (HandleLoop sampleCollaborators (fun _ => false) startedEngine).2.calls =
        reads startedEngine.calls +
          ([(Status.ok, emptyRequest), (Status.ok, sampleRequest)].length + 1) ∧
      (HandleLoop sampleCollaborators (fun _ => false) startedEngine).2.request_queue_ =
        [(Status.ok, sampleRequest)] :=
  ⟨rfl, rfl, rfl, rfl,
    HandleLoop_ends_on_terminal_or_flag sampleCollaborators (fun _ => false) startedEngine
      sampleBatchManager [(Status.ok, emptyRequest), (Status.ok, sampleRequest)] sentinel
      [(Status.ok, sampleRequest)] rfl rfl rfl (by decide) (fun _ _ => rfl) (Or.inl rfl)⟩

/-- C2: Enqueue failures do not stop the ingestion loop.  With the termination flag unset
throughout, on a channel that holds a terminal-status item (in particular one that ends in
it), and whatever `BatchManager::Enqueue` answers, `HandleLoop` returns OK and the requests
it passed to `HandleRequest` are those of the items before the first terminal-status item,
each once and in read order; a BatchManager answering differently gets the same requests. -/
theorem HandleLoop_isolates_enqueue_failures (c c2 : Collaborators) (stopped : Nat → Bool)
    (s : InferenceEngine) (bm : BatchManager)
    (hterm : s.terminated_ = false) (hbm : s.batch_manager_ = some bm)
    (hflag : ∀ k, stopped k = false)
    (hlast : ∃ t ∈ s.request_queue_, t.1.GetCode = RetCode.RET_TERMINATED) :
    (HandleLoop c stopped s).1 = Outcome.returned Status.ok ∧
      handledRequests (HandleLoop c stopped s).2.calls =
        handledRequests s.calls ++
          (s.request_queue_.takeWhile
            (fun p => decide (p.1.GetCode ≠ RetCode.RET_TERMINATED))).map (fun p => p.2) ∧
      handledRequests (HandleLoop c2 stopped s).2.calls =
        handledRequests (HandleLoop c stopped s).2.calls := by
  obtain ⟨pre, x, post, hsplit, hpre, hx, hall⟩ := split_at_first_terminal s.request_queue_ hlast
  have h1 := HandleLoop_loop_stops c stopped bm x post pre 0 s hterm hbm hall
    (fun k _ => by simpa using hflag k) (Or.inr hx)
  have h2 := HandleLoop_loop_stops c2 stopped bm x post pre 0 s hterm hbm hall
    (fun k _ => by simpa using hflag k) (Or.inr hx)
  rw [← hsplit] at h1 h2
  refine ⟨h1.1, ?_, ?_⟩
  · rw [← hpre]
    exact h1.2.1
  · exact h2.2.1.trans h1.2.1.symm

/-- Witness of C2 on the sample queue, whose first request the sample BatchManager rejects;
the second BatchManager admits every request. -/
theorem HandleLoop_isolates_enqueue_failures_witness :
    startedEngine.terminated_ = false ∧
      startedEngine.batch_manager_ = some sampleBatchManager ∧
      (∃ t ∈ startedEngine.request_queue_, t.1.GetCode = RetCode.RET_TERMINATED) ∧
      (sampleCollaborators.Enqueue [] emptyRequest.req_id emptyRequest.model_name
        emptyRequest.tokens emptyRequest.sampling_configs emptyRequest.waiter).OK = false ∧
      (HandleLoop sampleCollaborators (fun _ => false) startedEngine).1 =
        Outcome.returned Status.ok ∧
      handledRequests (HandleLoop sampleCollaborators (fun _ => false) startedEngine).2.calls =
        handledRequests startedEngine.calls ++
          (startedEngine.request_queue_.takeWhile
            (fun p => decide (p.1.GetCode ≠ RetCode.RET_TERMINATED))).map (fun p => p.2) ∧
      handledRequests
          (HandleLoop admitAll (fun _ => false) startedEngine).2.calls =
        handledRequests (HandleLoop sampleCollaborators (fun _ => false) startedEngine).2.calls :=
  ⟨rfl, rfl, ⟨sentinel, by decide, rfl⟩, rfl,
    HandleLoop_isolates_enqueue_failures sampleCollaborators admitAll (fun _ => false)
      startedEngine sampleBatchManager rfl rfl (fun _ => rfl) ⟨sentinel, by decide, rfl⟩⟩

end numerous_llm
